import Mathlib

/-!
# Verification of the super-backend lead-management service

Shallow embedding of the routes and Mongoose models of the `super-backend`
repository (Express + MongoDB lead capture service), together with proofs
settling the frozen specification claims.

The embedding follows the JavaScript source closely:

* `src/routes/superAdmin.js` (second router in the file): the public lead
  ingestion `POST /api/leads` and the authenticated lead list `GET /api/leads`.
* `src/routes/landingPages.js`: the `POST /api/landing-pages/:id/test-form`
  dry-run validation.
* `src/models/Lead.js`: the Mongoose schema (required fields) together with
  the `allFormData` virtual.
* `src/models/AdminAccess.js` and the grant/revoke routes in the admin router.
* `src/routes/auth.js`: `POST /api/auth/login`.

JavaScript strings are modelled by Lean `String` (code points coincide with
UTF-16 units for every input considered here); JSON payload values are either
strings or arrays of strings; a document store collection is a Lean list; a
`findById`/`findOne` lookup is `List.find?`; a Mongoose `save` of a fetched
document is an id-directed update of the list.
-/

namespace SuperBackend

/-- A JavaScript value occurring in a submission payload: the transport layer
delivers strings, or arrays of strings for multi-select / checkbox inputs. -/
inductive JSVal where
  | str (s : String)
  | arr (xs : List String)
deriving DecidableEq, Repr

/-- JavaScript `toString()` coercion: a string is itself, an array joins its
elements with commas. -/
def JSVal.toStr : JSVal → String
  | .str s => s
  | .arr xs => String.intercalate "," xs

/-- JavaScript truthiness of a payload value: the empty string is falsy,
every array (even the empty one) is truthy. -/
def JSVal.truthy : JSVal → Bool
  | .str s => s != ""
  | .arr _ => true

/-- Whether a payload value is a plain string (and not an array). -/
def JSVal.isStr : JSVal → Bool
  | .str _ => true
  | .arr _ => false

/-- Whitespace trimming of a character list from both ends, as performed by
JavaScript `String.prototype.trim`. -/
def trimList (l : List Char) : List Char :=
  ((l.dropWhile Char.isWhitespace).reverse.dropWhile Char.isWhitespace).reverse

/-- JavaScript `s.trim()`. -/
def jsTrim (s : String) : String := ⟨trimList s.data⟩

/-- JavaScript `s.toLowerCase()`, modelled characterwise. -/
def jsToLower (s : String) : String := ⟨s.data.map Char.toLower⟩

/-- JavaScript `s.length`. -/
def jsLength (s : String) : Nat := s.data.length

/-- The character class `[^\s@]` of the ingestion email pattern:
no whitespace and no at-sign. -/
def okEmailChar (c : Char) : Bool := !c.isWhitespace && c != '@'

/-- The domain part of the email pattern, `[^\s@]+\.[^\s@]+`: every character
is in the class and some dot occurs neither first nor last. -/
def emailDomainOk (d : List Char) : Bool :=
  d.all okEmailChar && ((d.drop 1).dropLast).contains '.'

/-- Scanning the local part after its first character: either further
local-part characters, or the at-sign followed by the domain. -/
def emailAfterLocal : List Char → Bool
  | [] => false
  | c :: rest => if c = '@' then emailDomainOk rest else okEmailChar c && emailAfterLocal rest

/-- The anchored pattern `[^\s@]+@[^\s@]+\.[^\s@]+` on a character list:
a nonempty local part, the at-sign, the domain. -/
def emailScan : List Char → Bool
  | [] => false
  | c :: rest => if c = '@' then false else okEmailChar c && emailAfterLocal rest

/-- The ingestion email test `/^[^\s@]+@[^\s@]+\.[^\s@]+$/.test(s)` from
`src/routes/superAdmin.js`. -/
def emailRegexTest (s : String) : Bool := emailScan s.data

/-- A submission payload: the key/value entries of the JSON body after the
destructuring `const { landingPageId, ...formData } = req.body` (keys of a
JavaScript object are unique). -/
abbrev Payload := List (String × JSVal)

/-- Reading `formData[key]`; `none` models `undefined`. -/
def lookupField (fd : Payload) (k : String) : Option JSVal :=
  (fd.find? (fun p => p.1 == k)).map Prod.snd

/-- One entry of `landingPage.formFields` (`formFieldSchema` in
`src/models/LandingPage.js`).  The `placeholder`, `options`, `validation` and
`order` attributes of the schema are never read by any modelled route and are
omitted. -/
structure FormField where
  name : String
  label : String
  ftype : String := "text"
  required : Bool := false
deriving DecidableEq, Repr

/-- The `includeDefaultFields` toggle map of a landing page, with the schema
defaults of `src/models/LandingPage.js`. -/
structure IncludeDefaultFields where
  firstName : Bool := true
  lastName : Bool := true
  email : Bool := true
  phone : Bool := false
  company : Bool := false
  message : Bool := false
deriving DecidableEq, Repr

/-- A landing page document (`src/models/LandingPage.js`). -/
structure LandingPage where
  name : String
  url : String
  status : String := "active"
  formFields : List FormField := []
  includeDefaultFields : IncludeDefaultFields := {}
deriving DecidableEq, Repr

/-- The data assembled by the ingestion route for `Lead.create`
(`src/models/Lead.js`): six fixed attributes, the `dynamicFields` extension
map (insertion-ordered, as a JavaScript `Map`), and the stamped landing-page
reference, IP address and user agent. -/
structure LeadData where
  firstName : Option String := none
  lastName : Option String := none
  email : Option String := none
  phone : Option String := none
  company : Option String := none
  message : Option String := none
  dynamicFields : List (String × JSVal) := []
  landingPage : String := ""
  ipAddress : String := ""
  userAgent : String := ""
deriving DecidableEq, Repr

/-- Error message of the ingestion firstName check. -/
def firstNameMsg : String := "First name is required and must be at least 2 characters"

/-- Error message of the ingestion lastName check. -/
def lastNameMsg : String := "Last name is required and must be at least 2 characters"

/-- Error message of the ingestion email check. -/
def emailMsg : String := "Valid email is required"

/-- Processing of an enabled name-like default field in the ingestion route:
`if (!formData.key || formData.key.trim().length < 2) return 400;
leadData.key = formData.key.trim()`.  A non-string value passes the
truthiness test and then crashes on `.trim()` (modelled as an error). -/
def defaultNameField (enabled : Bool) (fd : Payload) (key errMsg : String) :
    Except String (Option String) :=
  if enabled then
    match lookupField fd key with
    | none => .error errMsg
    | some (.str s) =>
      if s == "" then .error errMsg
      else if jsLength (jsTrim s) < 2 then .error errMsg
      else .ok (some (jsTrim s))
    | some (.arr _) => .error "TypeError: trim is not a function"
  else .ok none

/-- Processing of the email default field:
`if (!formData.email || !regex.test(formData.email)) return 400;
leadData.email = formData.email.toLowerCase().trim()`.  The regex test
coerces an array with `toString`, but `toLowerCase` then crashes on it. -/
def defaultEmailField (enabled : Bool) (fd : Payload) : Except String (Option String) :=
  if enabled then
    match lookupField fd "email" with
    | none => .error emailMsg
    | some (.str s) =>
      if s == "" then .error emailMsg
      else if emailRegexTest s then .ok (some (jsTrim (jsToLower s)))
      else .error emailMsg
    | some (.arr xs) =>
      if emailRegexTest (JSVal.toStr (.arr xs)) then .error "TypeError: toLowerCase is not a function"
      else .error emailMsg
  else .ok none

/-- Processing of the phone field in the ingestion route.  In the source this
is `if (formData.phone) leadData.phone = formData.phone.trim();` — NOT guarded
by `includeDefaultFields.phone`. -/
def phoneField (fd : Payload) : Except String (Option String) :=
  match lookupField fd "phone" with
  | none => .ok none
  | some (.str s) => if s == "" then .ok none else .ok (some (jsTrim s))
  | some (.arr _) => .error "TypeError: trim is not a function"

/-- Processing of the company / message default fields:
`if (landingPage.includeDefaultFields.key && formData.key)
leadData.key = formData.key.trim();`. -/
def optionalDefaultField (enabled : Bool) (fd : Payload) (key : String) :
    Except String (Option String) :=
  if enabled then
    match lookupField fd key with
    | none => .ok none
    | some (.str s) => if s == "" then .ok none else .ok (some (jsTrim s))
    | some (.arr _) => .error "TypeError: trim is not a function"
  else .ok none

/-- `const standardFields = ['firstName', 'lastName', 'email', 'phone',
'landingPageId'];` — the keys excluded from the dynamic-field loop. -/
def standardFields : List String :=
  ["firstName", "lastName", "email", "phone", "landingPageId"]

/-- The dynamic-field loop of the ingestion route: for each payload entry,
skip standard fields and blank values; otherwise, if the landing page
configures the field as required and the value is blank, fail naming the
label (this guard repeats the skip condition, mirroring the source); else
store the stringified, trimmed value. -/
def processDynamicFields (lp : LandingPage) : Payload → Except String (List (String × JSVal))
  | [] => .ok []
  | (k, v) :: rest =>
    if standardFields.contains k || !v.truthy || jsTrim v.toStr == "" then
      processDynamicFields lp rest
    else
      match lp.formFields.find? (fun f => f.name == k) with
      | some f =>
        if f.required && (!v.truthy || jsTrim v.toStr == "") then
          .error (f.label ++ " is required")
        else
          match processDynamicFields lp rest with
          | .error e => .error e
          | .ok tail => .ok ((k, JSVal.str (jsTrim v.toStr)) :: tail)
      | none =>
        match processDynamicFields lp rest with
        | .error e => .error e
        | .ok tail => .ok ((k, JSVal.str (jsTrim v.toStr)) :: tail)

/-- Sequencing of the early-return steps of a route handler: an error
response aborts, a success value feeds the next step. -/
def exBind (x : Except String α) (f : α → Except String β) : Except String β :=
  match x with
  | .error e => .error e
  | .ok a => f a

/-- The route-level part of `POST /api/leads` on a landing page found by
`findById`: status check, default-field processing, dynamic-field loop,
assembly of the lead data. -/
def ingestRoute (lpId : String) (lp : LandingPage) (fd : Payload) (ip ua : String) :
    Except String LeadData :=
  if lp.status != "active" then .error "Invalid landing page"
  else
    exBind (defaultNameField lp.includeDefaultFields.firstName fd "firstName" firstNameMsg) fun fn =>
    exBind (defaultNameField lp.includeDefaultFields.lastName fd "lastName" lastNameMsg) fun ln =>
    exBind (defaultEmailField lp.includeDefaultFields.email fd) fun em =>
    exBind (phoneField fd) fun ph =>
    exBind (optionalDefaultField lp.includeDefaultFields.company fd "company") fun co =>
    exBind (optionalDefaultField lp.includeDefaultFields.message fd "message") fun ms =>
    exBind (processDynamicFields lp fd) fun dyn =>
    .ok { firstName := fn, lastName := ln, email := em, phone := ph,
          company := co, message := ms, dynamicFields := dyn,
          landingPage := lpId, ipAddress := ip, userAgent := ua }

/-- Mongoose `required` validation of a String path: fails when the value is
absent or the empty string. -/
def requiredStringOk : Option String → Bool
  | none => false
  | some s => s != ""

/-- `Lead.create` as constrained by `src/models/Lead.js`: `firstName`,
`lastName` and `email` carry `required: true`; the trim / lowercase setters
are already applied by the route on every value it assigns. -/
def leadCreate (d : LeadData) : Except String LeadData :=
  if !requiredStringOk d.firstName then .error "Please provide first name"
  else if !requiredStringOk d.lastName then .error "Please provide last name"
  else if !requiredStringOk d.email then .error "Please provide email"
  else .ok d

/-- `POST /api/leads` end to end: `findById` result, route validation, then
the model-level save.  `.ok d` means a Lead with data `d` is persisted;
`.error` means no Lead is created. -/
def ingest (lpId : String) (lp? : Option LandingPage) (fd : Payload) (ip ua : String) :
    Except String LeadData :=
  match lp? with
  | none => .error "Invalid landing page"
  | some lp =>
    match ingestRoute lpId lp fd ip ua with
    | .error e => .error e
    | .ok d => leadCreate d

/-! ## The `allFormData` virtual of the Lead model -/

/-- A JavaScript object, extensionally: a list of present keys with their
(possibly `undefined`, i.e. `none`) values. -/
abbrev JSObj := List (String × Option JSVal)

/-- Reading the entry for `k`: `none` when the key is absent,
`some none` when it is present with an `undefined` value. -/
def objGetEntry (o : JSObj) (k : String) : Option (Option JSVal) :=
  (o.find? (fun p => p.1 == k)).map Prod.snd

/-- JavaScript property assignment `o[k] = v`: overwrite an existing key in
place, otherwise append. -/
def objSet (o : JSObj) (k : String) (v : Option JSVal) : JSObj :=
  if o.any (fun p => p.1 == k) then
    o.map (fun p => if p.1 == k then (p.1, v) else p)
  else o ++ [(k, v)]

/-- The object literal the virtual starts from: the six fixed attributes. -/
def fixedObj (d : LeadData) : JSObj :=
  [("firstName", d.firstName.map JSVal.str),
   ("lastName", d.lastName.map JSVal.str),
   ("email", d.email.map JSVal.str),
   ("phone", d.phone.map JSVal.str),
   ("company", d.company.map JSVal.str),
   ("message", d.message.map JSVal.str)]

/-- `leadSchema.virtual('allFormData')` from `src/models/Lead.js`: build the
object of the six fixed attributes, then assign `data[key] = value` for each
`dynamicFields` entry in iteration order. -/
def allFormData (d : LeadData) : JSObj :=
  d.dynamicFields.foldl (fun o kv => objSet o kv.1 (some kv.2)) (fixedObj d)

/-- Direct lookup of a fixed attribute by name, used to state what the merge
returns when no dynamic entry shadows the key. -/
def fixedEntry (d : LeadData) (k : String) : Option (Option JSVal) :=
  if k = "firstName" then some (d.firstName.map JSVal.str)
  else if k = "lastName" then some (d.lastName.map JSVal.str)
  else if k = "email" then some (d.email.map JSVal.str)
  else if k = "phone" then some (d.phone.map JSVal.str)
  else if k = "company" then some (d.company.map JSVal.str)
  else if k = "message" then some (d.message.map JSVal.str)
  else none

/-! ## The test-form dry run (`POST /api/landing-pages/:id/test-form`) -/

/-- The firstName / lastName checks of the test-form route:
`if (enabled && (!formData.key || formData.key.trim().length < 2))
validationErrors.push(msg)`.  As in ingestion, `.trim()` on an array value
crashes. -/
def testNameCheck (enabled : Bool) (fd : Payload) (key msg : String) :
    Except String (List String) :=
  if enabled then
    match lookupField fd key with
    | none => .ok [msg]
    | some (.str s) =>
      if s == "" then .ok [msg]
      else if jsLength (jsTrim s) < 2 then .ok [msg]
      else .ok []
    | some (.arr _) => .error "TypeError: trim is not a function"
  else .ok []

/-- The email check of the test-form route; the regex test coerces any value
with `toString`, so no crash is possible here. -/
def testEmailCheck (enabled : Bool) (fd : Payload) : List String :=
  if enabled then
    match lookupField fd "email" with
    | none => [emailMsg]
    | some v => if v.truthy && emailRegexTest v.toStr then [] else [emailMsg]
  else []

/-- The per-declared-field condition of the test-form loop:
`field.required && (!fieldValue || fieldValue.toString().trim() === '')`. -/
def requiredFieldMissing (fd : Payload) (f : FormField) : Bool :=
  f.required &&
    (match lookupField fd f.name with
     | none => true
     | some v => !v.truthy || jsTrim v.toStr == "")

/-- `POST /api/landing-pages/:id/test-form` on a landing page found by
`findById` (the route checks existence only, not `status`): collect the
default-field messages and then, for every declared form field, a
`label + " is required"` message when the required value is blank or absent.
`.ok []` is the 200 "Form validation passed" response; `.ok errs` with
`errs ≠ []` is the 400 response carrying `errs`. -/
def testForm (lp : LandingPage) (fd : Payload) : Except String (List String) :=
  exBind (testNameCheck lp.includeDefaultFields.firstName fd "firstName" firstNameMsg) fun e1 =>
  exBind (testNameCheck lp.includeDefaultFields.lastName fd "lastName" lastNameMsg) fun e2 =>
  .ok (e1 ++ e2 ++ testEmailCheck lp.includeDefaultFields.email fd ++
    (lp.formFields.filter (requiredFieldMissing fd)).map (fun f => f.label ++ " is required"))

/-! ## Access grants (`src/models/AdminAccess.js` and the admin router) -/

/-- An `AdminAccess` document; user and landing-page references are modelled
by numeric ids. -/
structure AdminAccessRec where
  id : Nat
  subAdmin : Nat
  landingPage : Nat
  grantedBy : Nat
  status : String := "active"
  revokedAt : Option Nat := none
  revokedBy : Option Nat := none
deriving DecidableEq, Repr

/-- The part of a `User` document read by the grant route. -/
structure UserRec where
  id : Nat
  role : String
  status : String
deriving DecidableEq, Repr

/-- The `findOne({ subAdmin, landingPage })` predicate of the grant route —
note: no status filter. -/
def pairMatch (s p : Nat) (a : AdminAccessRec) : Bool :=
  a.subAdmin == s && a.landingPage == p

/-- `AdminAccess.findOne({ subAdmin, landingPage })` over the collection. -/
def pairFind (l : List AdminAccessRec) (s p : Nat) : Option AdminAccessRec :=
  l.find? (pairMatch s p)

/-- Number of `AdminAccess` documents for one (subAdmin, landingPage) pair. -/
def countPair (l : List AdminAccessRec) (s p : Nat) : Nat :=
  (l.filter (pairMatch s p)).length

/-- `POST /api/admin/grant-access`: validate the sub admin and the landing
page; if an access record for the pair exists and is active, 400 Conflict;
if it exists but is not active, reactivate it in place (clearing the revoke
metadata); otherwise insert a fresh record.  `freshId` models the id MongoDB
assigns to an inserted document. -/
def grantAccess (users : List UserRec) (pages : List Nat) (accesses : List AdminAccessRec)
    (subAdminId landingPageId grantedBy freshId : Nat) :
    (Nat × String) × List AdminAccessRec :=
  match users.find? (fun u => u.id == subAdminId) with
  | none => ((400, "Invalid sub admin or not approved"), accesses)
  | some u =>
    if u.role != "sub_admin" || u.status != "approved" then
      ((400, "Invalid sub admin or not approved"), accesses)
    else if !(pages.contains landingPageId) then
      ((400, "Landing page not found"), accesses)
    else
      match pairFind accesses subAdminId landingPageId with
      | some ex =>
        if ex.status == "active" then ((400, "Access already granted"), accesses)
        else
          ((200, "Access reactivated successfully"),
            accesses.map (fun a =>
              if a.id == ex.id then
                { a with status := "active", revokedAt := none, revokedBy := none }
              else a))
      | none =>
        ((201, "Access granted successfully"),
          accesses ++ [{ id := freshId, subAdmin := subAdminId,
                         landingPage := landingPageId, grantedBy := grantedBy,
                         status := "active" }])

/-- `PUT /api/admin/revoke-access/:id`: 404 when absent, 400 when already
revoked, else set status `revoked` with revoker and timestamp. -/
def revokeAccess (accesses : List AdminAccessRec) (accessId revokerId now : Nat) :
    (Nat × String) × List AdminAccessRec :=
  match accesses.find? (fun a => a.id == accessId) with
  | none => ((404, "Access record not found"), accesses)
  | some a =>
    if a.status == "revoked" then ((400, "Access is already revoked"), accesses)
    else
      ((200, "Access revoked successfully"),
        accesses.map (fun x =>
          if x.id == accessId then
            { x with status := "revoked", revokedAt := some now, revokedBy := some revokerId }
          else x))

/-! ## The lead list (`GET /api/leads`, second router of superAdmin.js) -/

/-- The stored-lead attributes the list route queries. -/
structure StoredLead where
  id : Nat
  firstName : String := ""
  lastName : String := ""
  email : String := ""
  status : String := "new"
  landingPage : Nat
  createdAt : Nat
deriving DecidableEq, Repr

/-- A `{ page, limit }` pagination descriptor. -/
structure PageDesc where
  page : Nat
  limit : Nat
deriving DecidableEq, Repr

/-- The `pagination` object of a list response. -/
structure PaginationObj where
  next : Option PageDesc := none
  prev : Option PageDesc := none
deriving DecidableEq, Repr

/-- The JSON envelope of the lead list response.  `total` and `pagination`
are `Option` because the zero-access short-circuit response omits both keys. -/
structure ListResponse where
  success : Bool
  count : Nat
  total : Option Nat := none
  pagination : Option PaginationObj := none
  data : List StoredLead := []
deriving DecidableEq, Repr

/-- The query parameters of the lead list route (`none` = absent). -/
structure LeadFilters where
  landingPage : Option Nat := none
  status : Option String := none
  startDate : Option Nat := none
  endDate : Option Nat := none
  search : Option String := none
  page : Option Nat := none
  limit : Option Nat := none
deriving Repr

/-- The `query.landingPage` clause: unrestricted, a scoped `$in` list, or a
single id (a `landingPage` filter parameter overwrites the scope). -/
inductive LPClause where
  | all
  | inList (ids : List Nat)
  | single (id : Nat)

/-- Whether a lead's landing page satisfies the clause. -/
def lpClauseMatch : LPClause → Nat → Bool
  | .all, _ => true
  | .inList ids, x => ids.contains x
  | .single i, x => i == x

/-- Whether the first list is an initial segment of the second. -/
def startsWithList : List Char → List Char → Bool
  | [], _ => true
  | _ :: _, [] => false
  | n :: ns, h :: hs => n == h && startsWithList ns hs

/-- Whether the first list occurs contiguously inside the second. -/
def infixList (needle : List Char) : List Char → Bool
  | [] => startsWithList needle []
  | h :: hs => startsWithList needle (h :: hs) || infixList needle hs

/-- Case-insensitive substring match, modelling the `$regex`/`$options: 'i'`
search (the search strings considered contain no regex metacharacters). -/
def substrCI (needle hay : String) : Bool :=
  infixList (jsToLower needle).data (jsToLower hay).data

/-- The `$or` search over firstName, lastName and email. -/
def searchMatch (q : String) (ld : StoredLead) : Bool :=
  substrCI q ld.firstName || substrCI q ld.lastName || substrCI q ld.email

/-- The complete Mongo query predicate assembled by the list route. -/
def leadMatches (cl : LPClause) (f : LeadFilters) (ld : StoredLead) : Bool :=
  lpClauseMatch cl ld.landingPage
  && (match f.status with | none => true | some s => ld.status == s)
  && (match f.startDate with | none => true | some t => Nat.ble t ld.createdAt)
  && (match f.endDate with | none => true | some t => Nat.ble ld.createdAt t)
  && (match f.search with | none => true | some q => searchMatch q ld)

/-- Insertion into a list sorted by `createdAt` descending. -/
def insertByCreatedDesc (x : StoredLead) : List StoredLead → List StoredLead
  | [] => [x]
  | y :: t => if y.createdAt < x.createdAt then x :: y :: t else y :: insertByCreatedDesc x t

/-- `sort({ createdAt: -1 })`. -/
def sortByCreatedDesc (l : List StoredLead) : List StoredLead :=
  l.foldr insertByCreatedDesc []

/-- `parseInt(req.query.page, 10) || 1` (absent/NaN and 0 fall to the
default). -/
def queryPage (f : LeadFilters) : Nat :=
  match f.page with
  | none => 1
  | some 0 => 1
  | some n => n

/-- `parseInt(req.query.limit, 10) || 10`. -/
def queryLimit (f : LeadFilters) : Nat :=
  match f.limit with
  | none => 10
  | some 0 => 10
  | some n => n

/-- The pagination construction of the list route: `next` exactly when
`endIndex < total`, `prev` exactly when `startIndex > 0`. -/
def buildPagination (page limit total : Nat) : PaginationObj :=
  let startIndex := (page - 1) * limit
  let endIndex := startIndex + limit
  { next := if endIndex < total then some { page := page + 1, limit := limit } else none,
    prev := if 0 < startIndex then some { page := page - 1, limit := limit } else none }

/-- The non-short-circuited body of the list route: apply the filters (a
`landingPage` parameter overwrites the scope clause), count, sort, skip and
limit, and attach the pagination object. -/
def runLeadQuery (cl : LPClause) (db : List StoredLead) (f : LeadFilters) : ListResponse :=
  let cl' := match f.landingPage with
    | some p => LPClause.single p
    | none => cl
  let matched := db.filter (leadMatches cl' f)
  let total := matched.length
  let page := queryPage f
  let limit := queryLimit f
  let startIndex := (page - 1) * limit
  let dataPage := ((sortByCreatedDesc matched).drop startIndex).take limit
  { success := true, count := dataPage.length, total := some total,
    pagination := some (buildPagination page limit total), data := dataPage }

/-- `GET /api/leads`: a sub admin's query is scoped to the landing pages of
their active access records; with no active records the route returns
`{ success: true, count: 0, data: [] }` immediately — before reading any
filter and before touching the Lead collection (`total` and `pagination` are
not part of that response). -/
def getLeads (role : String) (userId : Nat) (accesses : List AdminAccessRec)
    (db : List StoredLead) (f : LeadFilters) : ListResponse :=
  if role == "sub_admin" then
    let pageIds :=
      (accesses.filter (fun a => a.subAdmin == userId && a.status == "active")).map
        (fun a => a.landingPage)
    if pageIds.length == 0 then
      { success := true, count := 0, data := [] }
    else runLeadQuery (.inList pageIds) db f
  else runLeadQuery .all db f

/-! ## Login (`POST /api/auth/login`) -/

/-- The part of a `User` document read by the login route.  The bcrypt
comparison `matchPassword` is abstracted as equality with the stored
credential (the hashing primitive is an external collaborator). -/
structure AuthUser where
  email : String
  password : String
  role : String
  status : String
deriving DecidableEq, Repr

/-- `POST /api/auth/login` as (status, message): lookup by email, credential
check, then the sub-admin approval gate. -/
def login (db : List AuthUser) (email password : String) : Nat × String :=
  match db.find? (fun u => u.email == email) with
  | none => (401, "Invalid credentials")
  | some u =>
    if u.password != password then (401, "Invalid credentials")
    else if u.role == "sub_admin" && u.status != "approved" then
      (403, "Your account is pending approval or has been rejected")
    else (200, "Login successful")

/-! ## Concrete fixtures used by counterexamples and witnesses -/

/-- The landing page of spec scenario 3: default toggles at their schema
defaults, one required declared field labelled "Budget". -/
def lpBudget : LandingPage :=
  { name := "X", url := "https://x.com",
    formFields := [{ name := "budget", label := "Budget", ftype := "select", required := true }] }

/-- The scenario-3 payload: valid default fields, `budget` entirely omitted. -/
def fdNoBudget : Payload :=
  [("firstName", .str "John"), ("lastName", .str "Doe"), ("email", .str "j@d.com")]

/-- A landing page whose `includeDefaultFields.phone` is `false` (the schema
default) — used to exercise the unguarded phone assignment. -/
def lpNoPhone : LandingPage := { name := "NP", url := "https://np.example" }

/-- A payload submitting a phone value (and valid default fields). -/
def fdWithPhone : Payload :=
  [("firstName", .str "Jane"), ("lastName", .str "Roe"), ("email", .str "jane@np.example"),
   ("phone", .str "123")]

/-- A payload containing a checkbox-style array value for field `colors`. -/
def fdWithArray : Payload :=
  [("firstName", .str "John"), ("lastName", .str "Doe"), ("email", .str "j@d.com"),
   ("colors", .arr ["a", "b"])]

/-- A landing page with company and message toggles enabled. -/
def lpCompanyMessage : LandingPage :=
  { name := "CM", url := "https://cm.example",
    includeDefaultFields := { company := true, message := true } }

/-- A payload with company and message values. -/
def fdCompanyMessage : Payload :=
  [("firstName", .str "John"), ("lastName", .str "Doe"), ("email", .str "j@d.com"),
   ("company", .str "Acme"), ("message", .str "Hi there")]

/-- A lead whose extension map shadows the fixed `firstName` attribute with a
different value. -/
def leadAlice : LeadData :=
  { firstName := some "Alice", lastName := some "Liddell", email := some "alice@w.l",
    dynamicFields := [("firstName", JSVal.str "Bob")] }

/-- A revoked access record for sub admin 7 on landing page 5. -/
def revokedAccess : AdminAccessRec :=
  { id := 1, subAdmin := 7, landingPage := 5, grantedBy := 2, status := "revoked" }

/-- A stored lead under landing page 5. -/
def someLead : StoredLead :=
  { id := 1, firstName := "Ann", lastName := "Bee", email := "a@b.c",
    landingPage := 5, createdAt := 100 }

/-- The lead created by ingesting `fdCompanyMessage` on `lpCompanyMessage`. -/
def leadCM : LeadData :=
  { firstName := some "John", lastName := some "Doe", email := some "j@d.com",
    company := some "Acme", message := some "Hi there",
    dynamicFields := [("company", JSVal.str "Acme"), ("message", JSVal.str "Hi there")],
    landingPage := "lp3", ipAddress := "ip", userAgent := "ua" }

/-- The access record inserted by a fresh Grant. -/
def grantRec (fid s p gb : Nat) : AdminAccessRec :=
  { id := fid, subAdmin := s, landingPage := p, grantedBy := gb, status := "active" }

/-- The same record after Revoke. -/
def revokedRec (fid s p gb rv now : Nat) : AdminAccessRec :=
  { id := fid, subAdmin := s, landingPage := p, grantedBy := gb,
    status := "revoked", revokedAt := some now, revokedBy := some rv }

/-!
## Theorems
-/

/-- C1: the spec requires that a submission omitting a declared required
field (label "Budget") creates no Lead and yields a ValidationError naming
the label.  The code disagrees: the dynamic-field loop only iterates over
payload entries and skips blank values before its required-check, so the
check is unreachable and the scenario-3 payload (budget entirely omitted)
creates a Lead.  This theorem evaluates the embedded ingestion at that
failing input: the result is a persisted Lead, not an error. -/
theorem c1_ingestion_accepts_omitted_required_field :
    ingest "lp1" (some lpBudget) fdNoBudget "1.2.3.4" "test-agent" =
      .ok { firstName := some "John", lastName := some "Doe", email := some "j@d.com",
            dynamicFields := [], landingPage := "lp1", ipAddress := "1.2.3.4",
            userAgent := "test-agent" } ∧
    lpBudget.formFields =
      [{ name := "budget", label := "Budget", ftype := "select", required := true }] ∧
    lookupField fdNoBudget "budget" = none :=
  ⟨rfl, rfl, rfl⟩

/-- C2 counterexample: in the `allFormData` merge the dynamic entry wins, not
the standard field — for `leadAlice` (fixed firstName "Alice", dynamic entry
firstName ↦ "Bob") the merged object carries "Bob". -/
theorem c2_dynamic_overrides_fixed_counterexample :
    objGetEntry (allFormData leadAlice) "firstName" = some (some (JSVal.str "Bob")) ∧
    leadAlice.firstName = some "Alice" ∧
    JSVal.str "Bob" ≠ JSVal.str "Alice" :=
  ⟨rfl, rfl, by decide⟩

/-- C3 counterexample: for the scenario-3 page and the budget-omitted payload
the ingestion creates a Lead while the test-form dry run rejects with
"Budget is required" — the two validations are not equivalent. -/
theorem c3_not_equivalent_counterexample :
    ingest "lp1" (some lpBudget) fdNoBudget "9.9.9.9" "agent" =
      .ok { firstName := some "John", lastName := some "Doe", email := some "j@d.com",
            dynamicFields := [], landingPage := "lp1", ipAddress := "9.9.9.9",
            userAgent := "agent" } ∧
    testForm lpBudget fdNoBudget = .ok ["Budget is required"] ∧
    ["Budget is required"] ≠ ([] : List String) :=
  ⟨rfl, rfl, by decide⟩

/-- C4 counterexample: a phone value submitted to a page whose
`includeDefaultFields.phone` is `false` IS stored in the Lead's fixed phone
attribute — the assignment `if (formData.phone) leadData.phone = ...` is not
guarded by the toggle. -/
theorem c4_phone_stored_despite_toggle_counterexample :
    lpNoPhone.includeDefaultFields.phone = false ∧
    ingest "lp2" (some lpNoPhone) fdWithPhone "8.8.8.8" "agent" =
      .ok { firstName := some "Jane", lastName := some "Roe",
            email := some "jane@np.example", phone := some "123",
            dynamicFields := [], landingPage := "lp2", ipAddress := "8.8.8.8",
            userAgent := "agent" } :=
  ⟨rfl, rfl⟩

/-- C5 counterexample: an array (multi-select/checkbox) value is NOT stored
as an array — `fieldValue.toString().trim()` stores the comma-joined string
instead. -/
theorem c5_array_stored_as_string_counterexample :
    ingest "lp2" (some lpNoPhone) fdWithArray "7.7.7.7" "agent" =
      .ok { firstName := some "John", lastName := some "Doe", email := some "j@d.com",
            dynamicFields := [("colors", JSVal.str "a,b")], landingPage := "lp2",
            ipAddress := "7.7.7.7", userAgent := "agent" } ∧
    JSVal.str "a,b" ≠ JSVal.arr ["a", "b"] :=
  ⟨rfl, by decide⟩

/-- C7 counterexample: the zero-active-access short-circuit response carries
no `total` field at all (it is `{ success, count: 0, data: [] }`), so it does
not carry `total = 0` as the claim states. -/
theorem c7_total_field_omitted_counterexample :
    getLeads "sub_admin" 7 [revokedAccess] [someLead] {} =
      { success := true, count := 0, total := none, pagination := none, data := [] } ∧
    (none : Option Nat) ≠ some 0 :=
  ⟨rfl, by decide⟩

end SuperBackend

namespace SuperBackend

theorem objGetEntry_nil (k : String) : objGetEntry [] k = none := rfl

theorem objGetEntry_cons (x : String × Option JSVal) (l : JSObj) (k : String) :
    objGetEntry (x :: l) k = if x.1 == k then some x.2 else objGetEntry l k := by
  unfold objGetEntry
  by_cases hx : (x.1 == k) = true
  · rw [List.find?_cons_of_pos _ (by simpa using hx), if_pos hx]
    rfl
  · rw [List.find?_cons_of_neg _ (by simpa using hx), if_neg hx]

theorem objGetEntry_map_set_same (k : String) (v : Option JSVal) :
    ∀ (o : JSObj), o.any (fun p => p.1 == k) = true →
      objGetEntry (o.map (fun p => if p.1 == k then (p.1, v) else p)) k = some v := by
  intro o
  induction o with
  | nil => intro h; simp at h
  | cons p t ih =>
    intro h
    by_cases hp : (p.1 == k) = true
    · simp only [List.map_cons, if_pos hp, objGetEntry_cons, hp, if_true]
    · simp only [List.any_cons, hp, Bool.false_or] at h
      rw [List.map_cons, if_neg hp, objGetEntry_cons, if_neg hp]
      exact ih h

theorem objGetEntry_objSet_same (k : String) (v : Option JSVal) (o : JSObj) :
    objGetEntry (objSet o k v) k = some v := by
  unfold objSet
  by_cases h : o.any (fun p => p.1 == k) = true
  · rw [if_pos h]
    exact objGetEntry_map_set_same k v o h
  · rw [if_neg h]
    have hnone : o.find? (fun p => p.1 == k) = none := by
      rw [List.find?_eq_none]
      intro x hx hc
      exact h (List.any_eq_true.mpr ⟨x, hx, hc⟩)
    unfold objGetEntry
    rw [List.find?_append, hnone]
    simp [List.find?]

theorem objGetEntry_map_set_ne (k k' : String) (v : Option JSVal)
    (hkk : (k' == k) = false) :
    ∀ (o : JSObj),
      objGetEntry (o.map (fun p => if p.1 == k then (p.1, v) else p)) k' =
        objGetEntry o k' := by
  intro o
  induction o with
  | nil => rfl
  | cons p t ih =>
    by_cases hp : (p.1 == k) = true
    · have hk : p.1 = k := beq_iff_eq.mp hp
      have hp' : (p.1 == k') = false := by
        rw [beq_eq_false_iff_ne] at hkk ⊢
        rw [hk]
        exact fun e => hkk e.symm
      simp only [List.map_cons, if_pos hp, objGetEntry_cons, hp', if_false]
      exact ih
    · simp only [List.map_cons, if_neg hp, objGetEntry_cons]
      by_cases hq : (p.1 == k') = true
      · simp only [hq, if_true]
      · simp only [hq, if_false]
        exact ih

theorem objGetEntry_objSet_ne (k k' : String) (v : Option JSVal) (o : JSObj)
    (hkk : (k' == k) = false) :
    objGetEntry (objSet o k v) k' = objGetEntry o k' := by
  unfold objSet
  by_cases h : o.any (fun p => p.1 == k) = true
  · rw [if_pos h]
    exact objGetEntry_map_set_ne k k' v hkk o
  · rw [if_neg h]
    unfold objGetEntry
    rw [List.find?_append]
    have hlast : List.find? (fun p => p.1 == k') [(k, v)] = none := by
      have : (k == k') = false := by
        rw [beq_eq_false_iff_ne] at hkk ⊢
        exact fun e => hkk e.symm
      simp [List.find?, this]
    rw [hlast]
    simp

theorem objGetEntry_foldl_set (l : List (String × JSVal)) :
    ∀ (base : JSObj), (l.map Prod.fst).Nodup → ∀ k,
      objGetEntry (l.foldl (fun o kv => objSet o kv.1 (some kv.2)) base) k =
        match l.find? (fun p => p.1 == k) with
        | some kv => some (some kv.2)
        | none => objGetEntry base k := by
  induction l with
  | nil => intro base _ k; rfl
  | cons kv t ih =>
    intro base hnd k
    obtain ⟨k0, v0⟩ := kv
    simp only [List.map_cons, List.nodup_cons] at hnd
    simp only [List.foldl_cons]
    rw [ih (objSet base k0 (some v0)) hnd.2 k]
    by_cases hk : (k0 == k) = true
    · have hk' : k0 = k := beq_iff_eq.mp hk
      subst hk'
      have ht : t.find? (fun p => p.1 == k0) = none := by
        rw [List.find?_eq_none]
        intro x hx hc
        exact hnd.1 ((beq_iff_eq.mp hc) ▸ List.mem_map_of_mem Prod.fst hx)
      simp [List.find?, ht, objGetEntry_objSet_same]
    · have hk' : (k0 == k) = false := by simpa using hk
      simp only [List.find?, hk']
      cases hfind : t.find? (fun p => p.1 == k) with
      | some kv' => simp [hfind]
      | none =>
        simp only [hfind]
        exact objGetEntry_objSet_ne k0 k (some v0) base
          (by rw [beq_eq_false_iff_ne] at hk' ⊢; exact fun e => hk' e.symm)

theorem objGetEntry_fixedObj (d : LeadData) (k : String) :
    objGetEntry (fixedObj d) k = fixedEntry d k := by
  unfold fixedObj fixedEntry
  by_cases h1 : k = "firstName"
  · subst h1; simp [objGetEntry_cons]
  by_cases h2 : k = "lastName"
  · subst h2; simp [objGetEntry_cons]
  by_cases h3 : k = "email"
  · subst h3; simp [objGetEntry_cons]
  by_cases h4 : k = "phone"
  · subst h4; simp [objGetEntry_cons]
  by_cases h5 : k = "company"
  · subst h5; simp [objGetEntry_cons]
  by_cases h6 : k = "message"
  · subst h6; simp [objGetEntry_cons]
  simp [objGetEntry_cons, objGetEntry_nil, h1, h2, h3, h4, h5, h6,
    beq_eq_false_iff_ne.mpr (Ne.symm h1), beq_eq_false_iff_ne.mpr (Ne.symm h2),
    beq_eq_false_iff_ne.mpr (Ne.symm h3), beq_eq_false_iff_ne.mpr (Ne.symm h4),
    beq_eq_false_iff_ne.mpr (Ne.symm h5), beq_eq_false_iff_ne.mpr (Ne.symm h6)]

/-- C2 (amended): the `allFormData` view is the union of the fixed attributes
and the extension map, but on a key collision the dynamic entry takes
precedence over the fixed attribute (the virtual assigns dynamic values over
the object of fixed fields). -/
theorem c2_allFormData_merge (d : LeadData)
    (hnd : (d.dynamicFields.map Prod.fst).Nodup) (k : String) :
    objGetEntry (allFormData d) k =
      match d.dynamicFields.find? (fun p => p.1 == k) with
      | some kv => some (some kv.2)
      | none => fixedEntry d k := by
  unfold allFormData
  rw [objGetEntry_foldl_set d.dynamicFields (fixedObj d) hnd k]
  cases hfind : d.dynamicFields.find? (fun p => p.1 == k) with
  | some kv => simp [hfind]
  | none => simp [hfind, objGetEntry_fixedObj]

theorem c2_allFormData_merge_witness :
    (leadAlice.dynamicFields.map Prod.fst).Nodup ∧
    objGetEntry (allFormData leadAlice) "firstName" =
      match leadAlice.dynamicFields.find? (fun p => p.1 == "firstName") with
      | some kv => some (some kv.2)
      | none => fixedEntry leadAlice "firstName" :=
  ⟨by decide, c2_allFormData_merge leadAlice (by decide) "firstName"⟩

end SuperBackend

namespace SuperBackend

theorem exBind_ok {α β : Type} {x : Except String α} {f : α → Except String β} {b : β}
    (h : exBind x f = .ok b) : ∃ a, x = .ok a ∧ f a = .ok b := by
  cases x with
  | error e => simp [exBind] at h
  | ok a => exact ⟨a, rfl, h⟩

theorem processDynamicFields_cons_skipped (lp : LandingPage) (k0 : String) (v0 : JSVal)
    (rest : Payload)
    (hskip : (standardFields.contains k0 || !v0.truthy || jsTrim v0.toStr == "") = true) :
    processDynamicFields lp ((k0, v0) :: rest) = processDynamicFields lp rest := by
  rw [processDynamicFields, if_pos hskip]

theorem processDynamicFields_cons_stored (lp : LandingPage) (k0 : String) (v0 : JSVal)
    (rest : Payload) (out : List (String × JSVal))
    (hskip : ¬(standardFields.contains k0 || !v0.truthy || jsTrim v0.toStr == "") = true)
    (h : processDynamicFields lp ((k0, v0) :: rest) = .ok out) :
    ∃ tail, processDynamicFields lp rest = .ok tail ∧
      out = (k0, JSVal.str (jsTrim v0.toStr)) :: tail := by
  have hprop : (k0 ∉ standardFields ∧ v0.truthy = true) ∧ ¬jsTrim v0.toStr = "" := by
    simpa using hskip
  have hcomp : (!v0.truthy || jsTrim v0.toStr == "") = false := by
    simp [hprop.1.2, hprop.2]
  rw [show processDynamicFields lp ((k0, v0) :: rest) =
      (match lp.formFields.find? (fun f => f.name == k0) with
       | some f =>
         if f.required && (!v0.truthy || jsTrim v0.toStr == "") then
           .error (f.label ++ " is required")
         else
           match processDynamicFields lp rest with
           | .error e => .error e
           | .ok tail => .ok ((k0, JSVal.str (jsTrim v0.toStr)) :: tail)
       | none =>
         match processDynamicFields lp rest with
         | .error e => .error e
         | .ok tail => .ok ((k0, JSVal.str (jsTrim v0.toStr)) :: tail))
    from by rw [processDynamicFields]; rw [if_neg hskip]] at h
  cases hfind : lp.formFields.find? (fun f => f.name == k0) with
  | some f =>
    rw [hfind] at h
    simp only [hcomp, Bool.and_false, Bool.false_eq_true, if_false] at h
    cases hrec : processDynamicFields lp rest with
    | error e => rw [hrec] at h; simp at h
    | ok tail =>
      rw [hrec] at h
      simp only [Except.ok.injEq] at h
      exact ⟨tail, rfl, h.symm⟩
  | none =>
    rw [hfind] at h
    cases hrec : processDynamicFields lp rest with
    | error e => rw [hrec] at h; simp at h
    | ok tail =>
      rw [hrec] at h
      simp only [Except.ok.injEq] at h
      exact ⟨tail, rfl, h.symm⟩

theorem processDynamicFields_never_fails (lp : LandingPage) :
    ∀ fd : Payload, ∃ out, processDynamicFields lp fd = .ok out := by
  intro fd
  induction fd with
  | nil => exact ⟨[], rfl⟩
  | cons kv rest ih =>
    obtain ⟨k, v⟩ := kv
    obtain ⟨out, hout⟩ := ih
    by_cases hskip : (standardFields.contains k || !v.truthy || jsTrim v.toStr == "") = true
    · exact ⟨out, by rw [processDynamicFields_cons_skipped lp k v rest hskip]; exact hout⟩
    · have hprop : (k ∉ standardFields ∧ v.truthy = true) ∧ ¬jsTrim v.toStr = "" := by
        simpa using hskip
      have hcomp : (!v.truthy || jsTrim v.toStr == "") = false := by
        simp [hprop.1.2, hprop.2]
      refine ⟨(k, JSVal.str (jsTrim v.toStr)) :: out, ?_⟩
      rw [processDynamicFields]
      rw [if_neg hskip]
      cases hfind : lp.formFields.find? (fun f => f.name == k) with
      | some f => simp [hcomp, hout]
      | none => simp [hout]

theorem processDynamicFields_mem_src (lp : LandingPage) :
    ∀ (fd : Payload) (out : List (String × JSVal)),
      processDynamicFields lp fd = .ok out →
      ∀ k v, (k, v) ∈ out →
        ∃ raw, (k, raw) ∈ fd ∧ v = JSVal.str (jsTrim raw.toStr) ∧
          k ∉ standardFields ∧ raw.truthy = true ∧ jsTrim raw.toStr ≠ "" := by
  intro fd
  induction fd with
  | nil =>
    intro out h k v hm
    simp only [processDynamicFields, Except.ok.injEq] at h
    rw [← h] at hm
    simp at hm
  | cons kv rest ih =>
    obtain ⟨k0, v0⟩ := kv
    intro out h k v hm
    by_cases hskip : (standardFields.contains k0 || !v0.truthy || jsTrim v0.toStr == "") = true
    · rw [processDynamicFields_cons_skipped lp k0 v0 rest hskip] at h
      obtain ⟨raw, hr, h1, h2, h3, h4⟩ := ih out h k v hm
      exact ⟨raw, List.mem_cons_of_mem _ hr, h1, h2, h3, h4⟩
    · obtain ⟨tail, htail, hout⟩ := processDynamicFields_cons_stored lp k0 v0 rest out hskip h
      have hprop : (k0 ∉ standardFields ∧ v0.truthy = true) ∧ ¬jsTrim v0.toStr = "" := by
        simpa using hskip
      subst hout
      rcases List.mem_cons.mp hm with heq | hm2
      · obtain ⟨hk, hv⟩ := Prod.mk.injEq .. |>.mp heq
        subst hk
        exact ⟨v0, List.mem_cons_self _ _, hv, hprop.1.1, hprop.1.2, hprop.2⟩
      · obtain ⟨raw, hr, h1, h2, h3, h4⟩ := ih tail htail k v hm2
        exact ⟨raw, List.mem_cons_of_mem _ hr, h1, h2, h3, h4⟩

theorem processDynamicFields_mem_store (lp : LandingPage) :
    ∀ (fd : Payload) (out : List (String × JSVal)),
      processDynamicFields lp fd = .ok out →
      ∀ k raw, (k, raw) ∈ fd → k ∉ standardFields →
        raw.truthy = true → jsTrim raw.toStr ≠ "" →
        (k, JSVal.str (jsTrim raw.toStr)) ∈ out := by
  intro fd
  induction fd with
  | nil => intro out _ k raw hm; simp at hm
  | cons kv rest ih =>
    obtain ⟨k0, v0⟩ := kv
    intro out h k raw hm hstd htr hne
    rcases List.mem_cons.mp hm with heq | hm2
    · obtain ⟨hk, hv⟩ := Prod.mk.injEq .. |>.mp heq
      subst hk
      subst hv
      have hskip : ¬(standardFields.contains k || !raw.truthy || jsTrim raw.toStr == "") = true := by
        simp [hstd, htr, hne]
      obtain ⟨tail, htail, hout⟩ := processDynamicFields_cons_stored lp k raw rest out hskip h
      rw [hout]
      exact List.mem_cons_self _ _
    · by_cases hskip : (standardFields.contains k0 || !v0.truthy || jsTrim v0.toStr == "") = true
      · rw [processDynamicFields_cons_skipped lp k0 v0 rest hskip] at h
        exact ih out h k raw hm2 hstd htr hne
      · obtain ⟨tail, htail, hout⟩ := processDynamicFields_cons_stored lp k0 v0 rest out hskip h
        rw [hout]
        exact List.mem_cons_of_mem _ (ih tail htail k raw hm2 hstd htr hne)

end SuperBackend

namespace SuperBackend

theorem at_mem_of_emailAfterLocal : ∀ l, emailAfterLocal l = true → '@' ∈ l := by
  intro l
  induction l with
  | nil => intro h; simp [emailAfterLocal] at h
  | cons c rest ih =>
    intro h
    unfold emailAfterLocal at h
    by_cases hc : c = '@'
    · subst hc; exact List.mem_cons_self _ _
    · rw [if_neg hc] at h
      have hparts : okEmailChar c = true ∧ emailAfterLocal rest = true := by simpa using h
      exact List.mem_cons_of_mem _ (ih hparts.2)

theorem at_mem_of_emailScan : ∀ l, emailScan l = true → '@' ∈ l := by
  intro l h
  cases l with
  | nil => simp [emailScan] at h
  | cons c rest =>
    simp only [emailScan] at h
    by_cases hc : c = '@'
    · rw [if_pos hc] at h; simp at h
    · rw [if_neg hc] at h
      have hparts : okEmailChar c = true ∧ emailAfterLocal rest = true := by simpa using h
      exact List.mem_cons_of_mem _ (at_mem_of_emailAfterLocal rest hparts.2)

theorem at_mem_of_emailRegexTest {s : String} (h : emailRegexTest s = true) :
    '@' ∈ s.data :=
  at_mem_of_emailScan s.data h

theorem all_of_dropWhile (p : Char → Bool) :
    ∀ l : List Char, (∀ x ∈ l.dropWhile p, p x = true) → ∀ x ∈ l, p x = true := by
  intro l
  induction l with
  | nil => intro _ x hx; simp at hx
  | cons a t ih =>
    intro h x hx
    by_cases ha : p a = true
    · rw [List.dropWhile_cons_of_pos ha] at h
      rcases List.mem_cons.mp hx with rfl | hx2
      · exact ha
      · exact ih h x hx2
    · rw [List.dropWhile_cons_of_neg ha] at h
      exact h x hx

theorem trimList_ne_nil {l : List Char} {c : Char} (hc : c ∈ l)
    (hw : c.isWhitespace = false) : trimList l ≠ [] := by
  intro h
  unfold trimList at h
  rw [List.reverse_eq_nil_iff, List.dropWhile_eq_nil_iff] at h
  have h2 : ∀ x ∈ l.dropWhile Char.isWhitespace, x.isWhitespace = true := by
    intro x hx
    exact h x (List.mem_reverse.mpr hx)
  have h3 := all_of_dropWhile Char.isWhitespace l h2 c hc
  rw [h3] at hw
  exact absurd hw (by simp)

theorem email_toLower_trim_ne {s : String} (h : emailRegexTest s = true) :
    jsTrim (jsToLower s) ≠ "" := by
  intro he
  have hat : '@' ∈ s.data := at_mem_of_emailRegexTest h
  have hat2 : '@' ∈ (jsToLower s).data := by
    have hmem := List.mem_map_of_mem Char.toLower hat
    simpa [jsToLower, show Char.toLower '@' = '@' from by decide] using hmem
  have hne : trimList (jsToLower s).data ≠ [] := trimList_ne_nil hat2 (by decide)
  exact hne (by simpa [jsTrim] using congrArg String.data he)

theorem jsTrim_ne_empty_of_len {s : String} (h : ¬jsLength (jsTrim s) < 2) :
    jsTrim s ≠ "" := by
  intro he
  rw [he] at h
  exact h (by decide)

theorem lookupField_mem {fd : Payload} {k : String} {v : JSVal}
    (h : lookupField fd k = some v) : (k, v) ∈ fd := by
  unfold lookupField at h
  cases hf : fd.find? (fun p => p.1 == k) with
  | none => rw [hf] at h; simp at h
  | some p =>
    rw [hf] at h
    have hbeq := List.find?_some hf
    have hp : p.1 = k := beq_iff_eq.mp hbeq
    have hv : p.2 = v := by simpa using h
    have := List.mem_of_find?_eq_some hf
    rwa [show p = (k, v) from Prod.ext hp hv] at this

theorem ingest_ok_parts {lpId : String} {lp : LandingPage} {fd : Payload}
    {ip ua : String} {d : LeadData}
    (h : ingest lpId (some lp) fd ip ua = .ok d) :
    lp.status = "active" ∧
    defaultNameField lp.includeDefaultFields.firstName fd "firstName" firstNameMsg =
      .ok d.firstName ∧
    defaultNameField lp.includeDefaultFields.lastName fd "lastName" lastNameMsg =
      .ok d.lastName ∧
    defaultEmailField lp.includeDefaultFields.email fd = .ok d.email ∧
    phoneField fd = .ok d.phone ∧
    optionalDefaultField lp.includeDefaultFields.company fd "company" = .ok d.company ∧
    optionalDefaultField lp.includeDefaultFields.message fd "message" = .ok d.message ∧
    processDynamicFields lp fd = .ok d.dynamicFields ∧
    requiredStringOk d.firstName = true ∧
    requiredStringOk d.lastName = true ∧
    requiredStringOk d.email = true ∧
    d.landingPage = lpId ∧ d.ipAddress = ip ∧ d.userAgent = ua := by
  simp only [ingest] at h
  cases hroute : ingestRoute lpId lp fd ip ua with
  | error e => rw [hroute] at h; simp at h
  | ok d0 =>
    rw [hroute] at h
    have h2 : leadCreate d0 = Except.ok d := h
    unfold leadCreate at h2
    by_cases h1 : (!requiredStringOk d0.firstName) = true
    · rw [if_pos h1] at h2; simp at h2
    rw [if_neg h1] at h2
    by_cases hb2 : (!requiredStringOk d0.lastName) = true
    · rw [if_pos hb2] at h2; simp at h2
    rw [if_neg hb2] at h2
    by_cases hb3 : (!requiredStringOk d0.email) = true
    · rw [if_pos hb3] at h2; simp at h2
    rw [if_neg hb3] at h2
    have hd : d0 = d := by simpa using h2
    subst hd
    unfold ingestRoute at hroute
    by_cases hst : (lp.status != "active") = true
    · rw [if_pos hst] at hroute; simp at hroute
    rw [if_neg hst] at hroute
    have hactive : lp.status = "active" := by simpa using hst
    obtain ⟨fn, hfn, hroute⟩ := exBind_ok hroute
    obtain ⟨ln, hln, hroute⟩ := exBind_ok hroute
    obtain ⟨em, hem, hroute⟩ := exBind_ok hroute
    obtain ⟨ph, hph, hroute⟩ := exBind_ok hroute
    obtain ⟨co, hco, hroute⟩ := exBind_ok hroute
    obtain ⟨ms, hms, hroute⟩ := exBind_ok hroute
    obtain ⟨dyn, hdyn, hroute⟩ := exBind_ok hroute
    have hrec := Except.ok.inj hroute
    subst hrec
    refine ⟨hactive, hfn, hln, hem, hph, hco, hms, hdyn, ?_, ?_, ?_, rfl, rfl, rfl⟩
    · simpa using h1
    · simpa using hb2
    · simpa using hb3

end SuperBackend

namespace SuperBackend

/-- C4 (amended): for every successfully ingested Lead, firstName, lastName
and email are present and their toggles are necessarily enabled; company and
message are stored only when their toggle is enabled; but phone is processed
by `phoneField` independently of `includeDefaultFields.phone` — a non-empty
submitted phone string is stored even when the toggle is off. -/
theorem c4_default_field_gating (lpId : String) (lp : LandingPage) (fd : Payload)
    (ip ua : String) (d : LeadData)
    (h : ingest lpId (some lp) fd ip ua = .ok d) :
    (lp.includeDefaultFields.firstName = true ∧ d.firstName ≠ none) ∧
    (lp.includeDefaultFields.lastName = true ∧ d.lastName ≠ none) ∧
    (lp.includeDefaultFields.email = true ∧ d.email ≠ none) ∧
    (lp.includeDefaultFields.company = false → d.company = none) ∧
    (lp.includeDefaultFields.message = false → d.message = none) ∧
    phoneField fd = .ok d.phone := by
  obtain ⟨-, hfn, hln, hem, hph, hco, hms, -, hr1, hr2, hr3, -, -, -⟩ := ingest_ok_parts h
  refine ⟨⟨?_, ?_⟩, ⟨?_, ?_⟩, ⟨?_, ?_⟩, ?_, ?_, hph⟩
  · by_contra hen
    have hen' : lp.includeDefaultFields.firstName = false := by
      cases hv : lp.includeDefaultFields.firstName
      · rfl
      · exact absurd hv hen
    rw [hen'] at hfn
    have : d.firstName = none := by
      have := Except.ok.inj hfn
      exact this.symm
    rw [this] at hr1
    simp [requiredStringOk] at hr1
  · intro hnone
    rw [hnone] at hr1
    simp [requiredStringOk] at hr1
  · by_contra hen
    have hen' : lp.includeDefaultFields.lastName = false := by
      cases hv : lp.includeDefaultFields.lastName
      · rfl
      · exact absurd hv hen
    rw [hen'] at hln
    have : d.lastName = none := (Except.ok.inj hln).symm
    rw [this] at hr2
    simp [requiredStringOk] at hr2
  · intro hnone
    rw [hnone] at hr2
    simp [requiredStringOk] at hr2
  · by_contra hen
    have hen' : lp.includeDefaultFields.email = false := by
      cases hv : lp.includeDefaultFields.email
      · rfl
      · exact absurd hv hen
    rw [hen'] at hem
    have : d.email = none := (Except.ok.inj hem).symm
    rw [this] at hr3
    simp [requiredStringOk] at hr3
  · intro hnone
    rw [hnone] at hr3
    simp [requiredStringOk] at hr3
  · intro hoff
    rw [hoff] at hco
    exact (Except.ok.inj hco).symm
  · intro hoff
    rw [hoff] at hms
    exact (Except.ok.inj hms).symm

theorem c4_default_field_gating_witness :
    ingest "lp2" (some lpNoPhone) fdWithPhone "8.8.8.8" "agent" =
      .ok { firstName := some "Jane", lastName := some "Roe",
            email := some "jane@np.example", phone := some "123",
            dynamicFields := [], landingPage := "lp2", ipAddress := "8.8.8.8",
            userAgent := "agent" } ∧
    ((lpNoPhone.includeDefaultFields.firstName = true ∧
        ({ firstName := some "Jane", lastName := some "Roe",
           email := some "jane@np.example", phone := some "123",
           dynamicFields := [], landingPage := "lp2", ipAddress := "8.8.8.8",
           userAgent := "agent" } : LeadData).firstName ≠ none) ∧
      (lpNoPhone.includeDefaultFields.lastName = true ∧
        ({ firstName := some "Jane", lastName := some "Roe",
           email := some "jane@np.example", phone := some "123",
           dynamicFields := [], landingPage := "lp2", ipAddress := "8.8.8.8",
           userAgent := "agent" } : LeadData).lastName ≠ none) ∧
      (lpNoPhone.includeDefaultFields.email = true ∧
        ({ firstName := some "Jane", lastName := some "Roe",
           email := some "jane@np.example", phone := some "123",
           dynamicFields := [], landingPage := "lp2", ipAddress := "8.8.8.8",
           userAgent := "agent" } : LeadData).email ≠ none) ∧
      (lpNoPhone.includeDefaultFields.company = false →
        ({ firstName := some "Jane", lastName := some "Roe",
           email := some "jane@np.example", phone := some "123",
           dynamicFields := [], landingPage := "lp2", ipAddress := "8.8.8.8",
           userAgent := "agent" } : LeadData).company = none) ∧
      (lpNoPhone.includeDefaultFields.message = false →
        ({ firstName := some "Jane", lastName := some "Roe",
           email := some "jane@np.example", phone := some "123",
           dynamicFields := [], landingPage := "lp2", ipAddress := "8.8.8.8",
           userAgent := "agent" } : LeadData).message = none) ∧
      phoneField fdWithPhone =
        .ok ({ firstName := some "Jane", lastName := some "Roe",
               email := some "jane@np.example", phone := some "123",
               dynamicFields := [], landingPage := "lp2", ipAddress := "8.8.8.8",
               userAgent := "agent" } : LeadData).phone) :=
  ⟨rfl, c4_default_field_gating "lp2" lpNoPhone fdWithPhone "8.8.8.8" "agent" _ rfl⟩

end SuperBackend

namespace SuperBackend

/-- C5 (amended): every value stored in a created Lead's dynamicFields map is
the submitted value stringified by JavaScript `toString` (so an array is
stored as its comma-joined string, not as an array) and trimmed, under the
submitted key, which is outside the standard-field exclusion set and had a
truthy, non-blank value. -/
theorem c5_dynamic_values_trimmed_strings (lpId : String) (lp : LandingPage)
    (fd : Payload) (ip ua : String) (d : LeadData)
    (h : ingest lpId (some lp) fd ip ua = .ok d)
    (k : String) (v : JSVal) (hm : (k, v) ∈ d.dynamicFields) :
    ∃ raw, (k, raw) ∈ fd ∧ v = JSVal.str (jsTrim raw.toStr) ∧
      k ∉ standardFields ∧ raw.truthy = true ∧ jsTrim raw.toStr ≠ "" := by
  obtain ⟨-, -, -, -, -, -, -, hdyn, -, -, -, -, -, -⟩ := ingest_ok_parts h
  exact processDynamicFields_mem_src lp fd d.dynamicFields hdyn k v hm

theorem c5_dynamic_values_trimmed_strings_witness :
    (("colors", JSVal.str "a,b") ∈
      ({ firstName := some "John", lastName := some "Doe", email := some "j@d.com",
         dynamicFields := [("colors", JSVal.str "a,b")], landingPage := "lp2",
         ipAddress := "7.7.7.7", userAgent := "agent" } : LeadData).dynamicFields) ∧
    (∃ raw, ("colors", raw) ∈ fdWithArray ∧ JSVal.str "a,b" = JSVal.str (jsTrim raw.toStr) ∧
      "colors" ∉ standardFields ∧ raw.truthy = true ∧ jsTrim raw.toStr ≠ "") :=
  ⟨by decide,
   c5_dynamic_values_trimmed_strings "lp2" lpNoPhone fdWithArray "7.7.7.7" "agent" _
     rfl "colors" (JSVal.str "a,b") (by decide)⟩

/-- C10: the dynamic-key exclusion set is exactly
firstName/lastName/email/phone/landingPageId and omits company and message;
hence, independently for each of the two fields, an enabled, non-blank
company (resp. message) value is stored twice: in the fixed attribute and
again under "company" (resp. "message") in the dynamicFields extension map. -/
theorem c10_company_message_double_storage (lpId : String) (lp : LandingPage)
    (fd : Payload) (ip ua : String) (d : LeadData)
    (h : ingest lpId (some lp) fd ip ua = .ok d) :
    (∀ s : String, lp.includeDefaultFields.company = true →
      lookupField fd "company" = some (JSVal.str s) → s ≠ "" → jsTrim s ≠ "" →
      d.company = some (jsTrim s) ∧
      ("company", JSVal.str (jsTrim s)) ∈ d.dynamicFields) ∧
    (∀ t : String, lp.includeDefaultFields.message = true →
      lookupField fd "message" = some (JSVal.str t) → t ≠ "" → jsTrim t ≠ "" →
      d.message = some (jsTrim t) ∧
      ("message", JSVal.str (jsTrim t)) ∈ d.dynamicFields) ∧
    standardFields = ["firstName", "lastName", "email", "phone", "landingPageId"] ∧
    "company" ∉ standardFields ∧ "message" ∉ standardFields := by
  obtain ⟨-, -, -, -, -, hcoF, hmsF, hdyn, -, -, -, -, -, -⟩ := ingest_ok_parts h
  refine ⟨?_, ?_, rfl, by decide, by decide⟩
  · intro s hco hs hne hnt
    rw [hco] at hcoF
    have hcoF2 : (match lookupField fd "company" with
        | none => (Except.ok none : Except String (Option String))
        | some (.str s) => if s == "" then .ok none else .ok (some (jsTrim s))
        | some (.arr _) => .error "TypeError: trim is not a function") = .ok d.company := hcoF
    rw [hs] at hcoF2
    have hbe : (s == "") = false := beq_eq_false_iff_ne.mpr hne
    have hcoF3 : (if s == "" then (Except.ok none : Except String (Option String))
        else .ok (some (jsTrim s))) = .ok d.company := hcoF2
    rw [if_neg (by simp [hbe])] at hcoF3
    refine ⟨(Except.ok.inj hcoF3).symm, ?_⟩
    have hmem : ("company", JSVal.str s) ∈ fd := lookupField_mem hs
    have hres := processDynamicFields_mem_store lp fd d.dynamicFields hdyn "company"
      (JSVal.str s) hmem (by decide) (by simp [JSVal.truthy, hne])
      (by simpa [JSVal.toStr] using hnt)
    simpa [JSVal.toStr] using hres
  · intro t hms ht hnet hntt
    rw [hms] at hmsF
    have hmsF2 : (match lookupField fd "message" with
        | none => (Except.ok none : Except String (Option String))
        | some (.str s) => if s == "" then .ok none else .ok (some (jsTrim s))
        | some (.arr _) => .error "TypeError: trim is not a function") = .ok d.message := hmsF
    rw [ht] at hmsF2
    have hbet : (t == "") = false := beq_eq_false_iff_ne.mpr hnet
    have hmsF3 : (if t == "" then (Except.ok none : Except String (Option String))
        else .ok (some (jsTrim t))) = .ok d.message := hmsF2
    rw [if_neg (by simp [hbet])] at hmsF3
    refine ⟨(Except.ok.inj hmsF3).symm, ?_⟩
    have hmem : ("message", JSVal.str t) ∈ fd := lookupField_mem ht
    have hres := processDynamicFields_mem_store lp fd d.dynamicFields hdyn "message"
      (JSVal.str t) hmem (by decide) (by simp [JSVal.truthy, hnet])
      (by simpa [JSVal.toStr] using hntt)
    simpa [JSVal.toStr] using hres

theorem c10_company_message_double_storage_witness :
    ingest "lp3" (some lpCompanyMessage) fdCompanyMessage "ip" "ua" = .ok leadCM ∧
    ((∀ s : String, lpCompanyMessage.includeDefaultFields.company = true →
        lookupField fdCompanyMessage "company" = some (JSVal.str s) → s ≠ "" →
        jsTrim s ≠ "" → leadCM.company = some (jsTrim s) ∧
        ("company", JSVal.str (jsTrim s)) ∈ leadCM.dynamicFields) ∧
      (∀ t : String, lpCompanyMessage.includeDefaultFields.message = true →
        lookupField fdCompanyMessage "message" = some (JSVal.str t) → t ≠ "" →
        jsTrim t ≠ "" → leadCM.message = some (jsTrim t) ∧
        ("message", JSVal.str (jsTrim t)) ∈ leadCM.dynamicFields) ∧
      standardFields = ["firstName", "lastName", "email", "phone", "landingPageId"] ∧
      "company" ∉ standardFields ∧ "message" ∉ standardFields) :=
  ⟨rfl,
   c10_company_message_double_storage "lp3" lpCompanyMessage fdCompanyMessage "ip" "ua"
     leadCM rfl⟩

end SuperBackend

namespace SuperBackend

theorem leadCreate_ok_of_required {d : LeadData}
    (h1 : requiredStringOk d.firstName = true)
    (h2 : requiredStringOk d.lastName = true)
    (h3 : requiredStringOk d.email = true) :
    leadCreate d = .ok d := by
  unfold leadCreate
  rw [if_neg (by simp [h1]), if_neg (by simp [h2]), if_neg (by simp [h3])]

theorem testNameCheck_nil_of_field {enabled : Bool} {fd : Payload} {key msg : String}
    {o : Option String} (h : defaultNameField enabled fd key msg = .ok o) :
    testNameCheck enabled fd key msg = .ok [] := by
  cases enabled with
  | false => rfl
  | true =>
    have h' : (match lookupField fd key with
        | none => (Except.error msg : Except String (Option String))
        | some (.str s) => if s == "" then .error msg
            else if jsLength (jsTrim s) < 2 then .error msg else .ok (some (jsTrim s))
        | some (.arr _) => .error "TypeError: trim is not a function") = .ok o := h
    have hgoal : testNameCheck true fd key msg = (match lookupField fd key with
        | none => (Except.ok [msg] : Except String (List String))
        | some (.str s) => if s == "" then .ok [msg]
            else if jsLength (jsTrim s) < 2 then .ok [msg] else .ok []
        | some (.arr _) => .error "TypeError: trim is not a function") := rfl
    rw [hgoal]
    cases hl : lookupField fd key with
    | none => rw [hl] at h'; simp at h'
    | some v =>
      rw [hl] at h'
      cases v with
      | arr xs => exact absurd h' (by simp)
      | str s =>
        have h2 : (if s == "" then (Except.error msg : Except String (Option String))
            else if jsLength (jsTrim s) < 2 then .error msg
            else .ok (some (jsTrim s))) = .ok o := h'
        show (if s == "" then (Except.ok [msg] : Except String (List String))
            else if jsLength (jsTrim s) < 2 then .ok [msg] else .ok []) = .ok []
        by_cases hs : (s == "") = true
        · rw [if_pos hs] at h2; simp at h2
        rw [if_neg hs] at h2
        by_cases hlen : jsLength (jsTrim s) < 2
        · rw [if_pos hlen] at h2; simp at h2
        rw [if_neg hs, if_neg hlen]

theorem testEmailCheck_nil_of_field {enabled : Bool} {fd : Payload}
    {o : Option String} (h : defaultEmailField enabled fd = .ok o) :
    testEmailCheck enabled fd = [] := by
  cases enabled with
  | false => rfl
  | true =>
    have h' : (match lookupField fd "email" with
        | none => (Except.error emailMsg : Except String (Option String))
        | some (.str s) => if s == "" then .error emailMsg
            else if emailRegexTest s then .ok (some (jsTrim (jsToLower s)))
            else .error emailMsg
        | some (.arr xs) => if emailRegexTest (JSVal.toStr (.arr xs))
            then .error "TypeError: toLowerCase is not a function"
            else .error emailMsg) = .ok o := h
    have hgoal : testEmailCheck true fd = (match lookupField fd "email" with
        | none => [emailMsg]
        | some v => if v.truthy && emailRegexTest v.toStr then [] else [emailMsg]) := rfl
    rw [hgoal]
    cases hl : lookupField fd "email" with
    | none => rw [hl] at h'; simp at h'
    | some v =>
      rw [hl] at h'
      cases v with
      | arr xs =>
        have h2 : (if emailRegexTest (JSVal.toStr (.arr xs)) then
            (Except.error "TypeError: toLowerCase is not a function" :
              Except String (Option String))
            else .error emailMsg) = .ok o := h'
        by_cases hr : emailRegexTest (JSVal.toStr (.arr xs)) = true
        · rw [if_pos hr] at h2; simp at h2
        · rw [if_neg hr] at h2; simp at h2
      | str s =>
        have h2 : (if s == "" then (Except.error emailMsg : Except String (Option String))
            else if emailRegexTest s then .ok (some (jsTrim (jsToLower s)))
            else .error emailMsg) = .ok o := h'
        show (if (JSVal.str s).truthy && emailRegexTest (JSVal.str s).toStr
            then ([] : List String) else [emailMsg]) = []
        by_cases hs : (s == "") = true
        · rw [if_pos hs] at h2; simp at h2
        rw [if_neg hs] at h2
        by_cases hr : emailRegexTest s = true
        · have hsf : (s == "") = false := by simpa using hs
          have hsne : (s != "") = true := by simp [bne, hsf]
          have hcond : ((JSVal.str s).truthy &&
              emailRegexTest (JSVal.str s).toStr) = true := by
            simp only [JSVal.truthy, JSVal.toStr, hsne, hr, Bool.and_self]
          rw [if_pos hcond]
        · rw [if_neg hr] at h2; simp at h2

theorem field_of_testNameCheck_true {fd : Payload} {key msg : String}
    (h : testNameCheck true fd key msg = .ok []) :
    ∃ s, lookupField fd key = some (JSVal.str s) ∧
      defaultNameField true fd key msg = .ok (some (jsTrim s)) ∧ jsTrim s ≠ "" := by
  have h' : (match lookupField fd key with
      | none => (Except.ok [msg] : Except String (List String))
      | some (.str s) => if s == "" then .ok [msg]
          else if jsLength (jsTrim s) < 2 then .ok [msg] else .ok []
      | some (.arr _) => .error "TypeError: trim is not a function") = .ok [] := h
  cases hl : lookupField fd key with
  | none =>
    rw [hl] at h'
    exact absurd (Except.ok.inj h') (by simp)
  | some v =>
    rw [hl] at h'
    cases v with
    | arr xs => exact absurd h' (by simp)
    | str s =>
      have h2 : (if s == "" then (Except.ok [msg] : Except String (List String))
          else if jsLength (jsTrim s) < 2 then .ok [msg] else .ok []) = .ok [] := h'
      by_cases hs : (s == "") = true
      · rw [if_pos hs] at h2
        exact absurd (Except.ok.inj h2) (by simp)
      rw [if_neg hs] at h2
      by_cases hlen : jsLength (jsTrim s) < 2
      · rw [if_pos hlen] at h2
        exact absurd (Except.ok.inj h2) (by simp)
      refine ⟨s, rfl, ?_, jsTrim_ne_empty_of_len hlen⟩
      have hd : defaultNameField true fd key msg = (match lookupField fd key with
          | none => (Except.error msg : Except String (Option String))
          | some (.str s) => if s == "" then .error msg
              else if jsLength (jsTrim s) < 2 then .error msg else .ok (some (jsTrim s))
          | some (.arr _) => .error "TypeError: trim is not a function") := rfl
      rw [hd, hl]
      show (if s == "" then (Except.error msg : Except String (Option String))
          else if jsLength (jsTrim s) < 2 then .error msg
          else .ok (some (jsTrim s))) = .ok (some (jsTrim s))
      rw [if_neg hs, if_neg hlen]

theorem field_of_testEmailCheck_true {fd : Payload}
    (hstr : fd.all (fun kv => kv.2.isStr) = true)
    (h : testEmailCheck true fd = []) :
    ∃ s, lookupField fd "email" = some (JSVal.str s) ∧ emailRegexTest s = true ∧
      defaultEmailField true fd = .ok (some (jsTrim (jsToLower s))) := by
  have h' : (match lookupField fd "email" with
      | none => [emailMsg]
      | some v => if v.truthy && emailRegexTest v.toStr then [] else [emailMsg]) = [] := h
  cases hl : lookupField fd "email" with
  | none => rw [hl] at h'; simp at h'
  | some v =>
    rw [hl] at h'
    have h2 : (if v.truthy && emailRegexTest v.toStr then ([] : List String)
        else [emailMsg]) = [] := h'
    by_cases hc : (v.truthy && emailRegexTest v.toStr) = true
    · have hvs : v.isStr = true := by
        simpa using List.all_eq_true.mp hstr _ (lookupField_mem hl)
      cases v with
      | arr xs => simp [JSVal.isStr] at hvs
      | str s =>
        have hparts : (JSVal.str s).truthy = true ∧
            emailRegexTest (JSVal.str s).toStr = true := by simpa using hc
        have hsne : s ≠ "" := by simpa [JSVal.truthy] using hparts.1
        have hreg : emailRegexTest s = true := by simpa [JSVal.toStr] using hparts.2
        have hs : (s == "") = false := beq_eq_false_iff_ne.mpr hsne
        refine ⟨s, rfl, hreg, ?_⟩
        have hd : defaultEmailField true fd = (match lookupField fd "email" with
            | none => (Except.error emailMsg : Except String (Option String))
            | some (.str s) => if s == "" then .error emailMsg
                else if emailRegexTest s then .ok (some (jsTrim (jsToLower s)))
                else .error emailMsg
            | some (.arr xs) => if emailRegexTest (JSVal.toStr (.arr xs))
                then .error "TypeError: toLowerCase is not a function"
                else .error emailMsg) := rfl
        rw [hd, hl]
        show (if s == "" then (Except.error emailMsg : Except String (Option String))
            else if emailRegexTest s then .ok (some (jsTrim (jsToLower s)))
            else .error emailMsg) = .ok (some (jsTrim (jsToLower s)))
        rw [if_neg (by simp [hs]), if_pos hreg]
    · rw [if_neg hc] at h2
      simp at h2

theorem phoneField_ok_of_strings {fd : Payload}
    (hstr : fd.all (fun kv => kv.2.isStr) = true) :
    ∃ o, phoneField fd = .ok o := by
  unfold phoneField
  cases hl : lookupField fd "phone" with
  | none => exact ⟨none, rfl⟩
  | some v =>
    have hvs : v.isStr = true := by
      simpa using List.all_eq_true.mp hstr _ (lookupField_mem hl)
    cases v with
    | arr xs => simp [JSVal.isStr] at hvs
    | str s =>
      by_cases hs : (s == "") = true
      · refine ⟨none, ?_⟩
        show (if s == "" then (Except.ok none : Except String (Option String))
            else .ok (some (jsTrim s))) = .ok none
        rw [if_pos hs]
      · refine ⟨some (jsTrim s), ?_⟩
        show (if s == "" then (Except.ok none : Except String (Option String))
            else .ok (some (jsTrim s))) = .ok (some (jsTrim s))
        rw [if_neg hs]

theorem optionalDefaultField_ok_of_strings (enabled : Bool) {fd : Payload} (key : String)
    (hstr : fd.all (fun kv => kv.2.isStr) = true) :
    ∃ o, optionalDefaultField enabled fd key = .ok o := by
  cases enabled with
  | false => exact ⟨none, rfl⟩
  | true =>
    unfold optionalDefaultField
    cases hl : lookupField fd key with
    | none => exact ⟨none, by rw [if_pos rfl]⟩
    | some v =>
      have hvs : v.isStr = true := by
        simpa using List.all_eq_true.mp hstr _ (lookupField_mem hl)
      cases v with
      | arr xs => simp [JSVal.isStr] at hvs
      | str s =>
        by_cases hs : (s == "") = true
        · refine ⟨none, ?_⟩
          rw [if_pos rfl]
          show (if s == "" then (Except.ok none : Except String (Option String))
              else .ok (some (jsTrim s))) = .ok none
          rw [if_pos hs]
        · refine ⟨some (jsTrim s), ?_⟩
          rw [if_pos rfl]
          show (if s == "" then (Except.ok none : Except String (Option String))
              else .ok (some (jsTrim s))) = .ok (some (jsTrim s))
          rw [if_neg hs]

end SuperBackend

namespace SuperBackend

/-- C3 (amended): the test-form dry run is the ingestion validation PLUS a
strict required check over every declared form field (which ingestion does
not enforce), and it skips ingestion's active-status requirement.  For an
active page with the firstName/lastName/email toggles enabled and a
string-valued payload: test-form acceptance implies ingestion acceptance, and
whenever ingestion creates a Lead the test-form result is exactly the list of
"label is required" messages for the blank-or-omitted required declared
fields. -/
theorem c3_testform_vs_ingestion (lpId : String) (lp : LandingPage) (fd : Payload)
    (ip ua : String)
    (hact : lp.status = "active")
    (hfn : lp.includeDefaultFields.firstName = true)
    (hln : lp.includeDefaultFields.lastName = true)
    (hem : lp.includeDefaultFields.email = true)
    (hstr : fd.all (fun kv => kv.2.isStr) = true) :
    (testForm lp fd = .ok [] → ∃ d, ingest lpId (some lp) fd ip ua = .ok d) ∧
    (∀ d, ingest lpId (some lp) fd ip ua = .ok d →
      testForm lp fd = .ok ((lp.formFields.filter (requiredFieldMissing fd)).map
        (fun f => f.label ++ " is required"))) := by
  constructor
  · intro hok
    unfold testForm at hok
    obtain ⟨e1, he1, hok⟩ := exBind_ok hok
    obtain ⟨e2, he2, hok⟩ := exBind_ok hok
    have hsplit : e1 ++ e2 ++ testEmailCheck lp.includeDefaultFields.email fd ++
        (lp.formFields.filter (requiredFieldMissing fd)).map
          (fun f => f.label ++ " is required") = [] := Except.ok.inj hok
    simp only [List.append_eq_nil] at hsplit
    obtain ⟨⟨⟨he1n, he2n⟩, hten⟩, -⟩ := hsplit
    subst he1n
    subst he2n
    rw [hfn] at he1
    rw [hln] at he2
    obtain ⟨s1, hl1, hdf1, htr1⟩ := field_of_testNameCheck_true he1
    obtain ⟨s2, hl2, hdf2, htr2⟩ := field_of_testNameCheck_true he2
    rw [hem] at hten
    obtain ⟨s3, hl3, hreg3, hdfe⟩ := field_of_testEmailCheck_true hstr hten
    have htre := email_toLower_trim_ne hreg3
    obtain ⟨ph, hph⟩ := phoneField_ok_of_strings hstr
    obtain ⟨co, hco⟩ :=
      optionalDefaultField_ok_of_strings lp.includeDefaultFields.company "company" hstr
    obtain ⟨ms, hms⟩ :=
      optionalDefaultField_ok_of_strings lp.includeDefaultFields.message "message" hstr
    obtain ⟨dyn, hdyn⟩ := processDynamicFields_never_fails lp fd
    have hstneg : ¬(lp.status != "active") = true := by simp [hact]
    have hroute : ∃ dr, ingestRoute lpId lp fd ip ua = .ok dr ∧
        dr.firstName = some (jsTrim s1) ∧ dr.lastName = some (jsTrim s2) ∧
        dr.email = some (jsTrim (jsToLower s3)) := by
      unfold ingestRoute
      rw [if_neg hstneg, hfn, hln, hem, hdf1, hdf2, hdfe, hph, hco, hms, hdyn]
      exact ⟨_, rfl, rfl, rfl, rfl⟩
    obtain ⟨dr, hr, hrf, hrl, hre⟩ := hroute
    refine ⟨dr, ?_⟩
    simp only [ingest]
    rw [hr]
    exact leadCreate_ok_of_required
      (by rw [hrf]; simp [requiredStringOk, htr1])
      (by rw [hrl]; simp [requiredStringOk, htr2])
      (by rw [hre]; simp [requiredStringOk, htre])
  · intro d hing
    obtain ⟨-, hfnP, hlnP, hemP, -, -, -, -, -, -, -, -, -, -⟩ := ingest_ok_parts hing
    have e1 := testNameCheck_nil_of_field hfnP
    have e2 := testNameCheck_nil_of_field hlnP
    have e3 := testEmailCheck_nil_of_field hemP
    unfold testForm
    simp only [e1, e2, e3, exBind]
    rfl

end SuperBackend

namespace SuperBackend

theorem find?_append_of_none {α : Type} {p : α → Bool} {l1 l2 : List α}
    (h : l1.find? p = none) : (l1 ++ l2).find? p = l2.find? p := by
  rw [List.find?_append, h]
  simp [Option.or]

theorem map_keep_of_ids {l : List AdminAccessRec} {fid : Nat}
    (g : AdminAccessRec → AdminAccessRec)
    (h : ∀ a ∈ l, a.id ≠ fid) :
    l.map (fun a => if a.id == fid then g a else a) = l := by
  induction l with
  | nil => rfl
  | cons a t ih =>
    simp only [List.map_cons]
    rw [if_neg (by simp [h a (List.mem_cons_self a t)])]
    rw [ih (fun x hx => h x (List.mem_cons_of_mem a hx))]

theorem filter_nil_of_pairFind_none {l : List AdminAccessRec} {s p : Nat}
    (h : pairFind l s p = none) : l.filter (pairMatch s p) = [] := by
  unfold pairFind at h
  rw [List.find?_eq_none] at h
  exact List.filter_eq_nil_iff.mpr h

/-- C6: Grant/Revoke lifecycle on one (subAdmin, landingPage) pair, starting
from a state with no record for the pair: the first Grant inserts one active
record (201); a second Grant while it is active returns Conflict
"Access already granted" and leaves the collection unchanged; after Revoke,
Grant reactivates the SAME record in place (status back to active, revoke
metadata cleared) and the record count for the pair stays 1 — no second
record is ever inserted. -/
theorem c6_grant_access_uniqueness
    (users : List UserRec) (pages : List Nat) (accesses : List AdminAccessRec)
    (s p gb fid fid2 fid3 rv now : Nat) (u0 : UserRec)
    (hfind : users.find? (fun u => u.id == s) = some u0)
    (hrole : u0.role = "sub_admin") (hstat : u0.status = "approved")
    (hpg : pages.contains p = true)
    (h0 : pairFind accesses s p = none)
    (hf : ∀ a ∈ accesses, a.id ≠ fid) :
    grantAccess users pages accesses s p gb fid =
      ((201, "Access granted successfully"), accesses ++ [grantRec fid s p gb]) ∧
    countPair (accesses ++ [grantRec fid s p gb]) s p = 1 ∧
    grantAccess users pages (accesses ++ [grantRec fid s p gb]) s p gb fid2 =
      ((400, "Access already granted"), accesses ++ [grantRec fid s p gb]) ∧
    revokeAccess (accesses ++ [grantRec fid s p gb]) fid rv now =
      ((200, "Access revoked successfully"),
        accesses ++ [revokedRec fid s p gb rv now]) ∧
    grantAccess users pages (accesses ++ [revokedRec fid s p gb rv now]) s p gb fid3 =
      ((200, "Access reactivated successfully"), accesses ++ [grantRec fid s p gb]) ∧
    countPair (accesses ++ [revokedRec fid s p gb rv now]) s p = 1 := by
  have hcond1 : (u0.role != "sub_admin" || u0.status != "approved") = false := by
    simp [hrole, hstat]
  have hpmem : p ∈ pages := by simpa using hpg
  have hcond2 : (!(pages.contains p)) = false := by simpa using hpg
  have h0f : accesses.find? (pairMatch s p) = none := h0
  have hfilter : accesses.filter (pairMatch s p) = [] := filter_nil_of_pairFind_none h0
  have hfnone : accesses.find? (fun a => a.id == fid) = none := by
    rw [List.find?_eq_none]
    intro x hx hc
    exact hf x hx (beq_iff_eq.mp hc)
  have hpf1 : pairFind (accesses ++ [grantRec fid s p gb]) s p =
      some (grantRec fid s p gb) := by
    unfold pairFind
    rw [find?_append_of_none h0f]
    simp [List.find?, pairMatch, grantRec]
  have hpfr : pairFind (accesses ++ [revokedRec fid s p gb rv now]) s p =
      some (revokedRec fid s p gb rv now) := by
    unfold pairFind
    rw [find?_append_of_none h0f]
    simp [List.find?, pairMatch, revokedRec]
  refine ⟨?_, ?_, ?_, ?_, ?_, ?_⟩
  · simp [grantAccess, hfind, hcond1, hpmem, pairFind, h0f, grantRec]
  · simp [countPair, List.filter_append, hfilter, pairMatch, grantRec]
  · have hgs : (grantRec fid s p gb).status = "active" := rfl
    simp [grantAccess, hfind, hcond1, hpmem, hpf1, hgs]
  · simp only [revokeAccess, find?_append_of_none hfnone, List.find?, grantRec]
    simp only [beq_self_eq_true, if_true]
    rw [List.map_append, map_keep_of_ids (fun x => { x with status := "revoked", revokedAt := some now, revokedBy := some rv }) hf]
    simp [revokedRec]
  · have hrs : (revokedRec fid s p gb rv now).status = "revoked" := rfl
    have hrid : (revokedRec fid s p gb rv now).id = fid := rfl
    simp only [grantAccess, hfind, hcond1, hcond2, Bool.false_eq_true, if_false, hpfr]
    rw [if_neg (by simp [hrs])]
    simp only [hrid]
    rw [List.map_append, map_keep_of_ids (fun x => { x with status := "active", revokedAt := none, revokedBy := none }) hf]
    simp [grantRec, revokedRec]
  · simp [countPair, List.filter_append, hfilter, pairMatch, revokedRec]

end SuperBackend

namespace SuperBackend

theorem c3_testform_vs_ingestion_witness :
    lpBudget.status = "active" ∧
    lpBudget.includeDefaultFields.firstName = true ∧
    lpBudget.includeDefaultFields.lastName = true ∧
    lpBudget.includeDefaultFields.email = true ∧
    fdNoBudget.all (fun kv => kv.2.isStr) = true ∧
    ((testForm lpBudget fdNoBudget = .ok [] →
        ∃ d, ingest "lp1" (some lpBudget) fdNoBudget "ipw" "uaw" = .ok d) ∧
      (∀ d, ingest "lp1" (some lpBudget) fdNoBudget "ipw" "uaw" = .ok d →
        testForm lpBudget fdNoBudget =
          .ok ((lpBudget.formFields.filter (requiredFieldMissing fdNoBudget)).map
            (fun f => f.label ++ " is required")))) :=
  ⟨rfl, rfl, rfl, rfl, by decide,
   c3_testform_vs_ingestion "lp1" lpBudget fdNoBudget "ipw" "uaw" rfl rfl rfl rfl (by decide)⟩

theorem c6_grant_access_uniqueness_witness :
    pairFind [] 1 5 = none ∧
    (grantAccess [{ id := 1, role := "sub_admin", status := "approved" }] [5] [] 1 5 9 100 =
        ((201, "Access granted successfully"), [grantRec 100 1 5 9]) ∧
      countPair [grantRec 100 1 5 9] 1 5 = 1 ∧
      grantAccess [{ id := 1, role := "sub_admin", status := "approved" }] [5]
          [grantRec 100 1 5 9] 1 5 9 101 =
        ((400, "Access already granted"), [grantRec 100 1 5 9]) ∧
      revokeAccess [grantRec 100 1 5 9] 100 9 50 =
        ((200, "Access revoked successfully"), [revokedRec 100 1 5 9 9 50]) ∧
      grantAccess [{ id := 1, role := "sub_admin", status := "approved" }] [5]
          [revokedRec 100 1 5 9 9 50] 1 5 9 102 =
        ((200, "Access reactivated successfully"), [grantRec 100 1 5 9]) ∧
      countPair [revokedRec 100 1 5 9 9 50] 1 5 = 1) :=
  ⟨rfl,
   c6_grant_access_uniqueness [{ id := 1, role := "sub_admin", status := "approved" }]
     [5] [] 1 5 9 100 101 102 9 50 { id := 1, role := "sub_admin", status := "approved" }
     rfl rfl rfl (by decide) rfl (by simp)⟩

/-- C7 (amended): for a sub admin whose active access-record set is empty,
the lead list returns success with count 0 and empty data for every filter
combination, short-circuited before the Lead collection is queried; the
short-circuit response omits the total and pagination fields. -/
theorem c7_empty_access_short_circuit (userId : Nat) (accesses : List AdminAccessRec)
    (db : List StoredLead) (f : LeadFilters)
    (h : accesses.filter (fun a => a.subAdmin == userId && a.status == "active") = []) :
    getLeads "sub_admin" userId accesses db f =
      { success := true, count := 0, total := none, pagination := none, data := [] } := by
  simp [getLeads, h]

theorem c7_empty_access_short_circuit_witness :
    ([revokedAccess].filter (fun a => a.subAdmin == 7 && a.status == "active") = []) ∧
    getLeads "sub_admin" 7 [revokedAccess] [someLead]
        { status := some "new", search := some "ann", page := some 3, limit := some 2 } =
      { success := true, count := 0, total := none, pagination := none, data := [] } :=
  ⟨by decide,
   c7_empty_access_short_circuit 7 [revokedAccess] [someLead]
     { status := some "new", search := some "ann", page := some 3, limit := some 2 }
     (by decide)⟩

/-- C8: the lead-list pagination contract: with N matching records and page
size L, the last page ⌈N/L⌉ carries no next descriptor and page 1 carries no
prev descriptor; next is present exactly when a further page exists
(page·L < N) and prev exactly when page > 1; and the list response's
pagination object is built by this construction from the query's page, limit
and the total number of matching records. -/
theorem c8_pagination_contract (N L : Nat) (hL : 1 ≤ L) (hN : 1 ≤ N) :
    (buildPagination ((N + L - 1) / L) L N).next = none ∧
    (buildPagination 1 L N).prev = none ∧
    (∀ p, 1 ≤ p → ((buildPagination p L N).next = none ↔ ¬p * L < N)) ∧
    (∀ p, ((buildPagination p L N).prev = none ↔ p ≤ 1)) ∧
    (∀ cl db f, (runLeadQuery cl db f).pagination =
        some (buildPagination (queryPage f) (queryLimit f)
          ((runLeadQuery cl db f).total.getD 0))) := by
  have key : ∀ p, 1 ≤ p → (p - 1) * L + L = p * L := by
    intro p hp
    obtain ⟨q, rfl⟩ : ∃ q, p = q + 1 := ⟨p - 1, by omega⟩
    simp [Nat.succ_mul]
  refine ⟨?_, ?_, ?_, ?_, ?_⟩
  · have hc : 0 < (N + L - 1) / L := Nat.div_pos (by omega) (by omega)
    have hdm := Nat.div_add_mod (N + L - 1) L
    have hmod := Nat.mod_lt (N + L - 1) (show 0 < L by omega)
    have hle : N ≤ L * ((N + L - 1) / L) := by omega
    show (if ((N + L - 1) / L - 1) * L + L < N
        then some { page := (N + L - 1) / L + 1, limit := L }
        else none) = (none : Option PageDesc)
    rw [key _ hc, if_neg (by rw [Nat.mul_comm]; omega)]
  · show (if 0 < (1 - 1) * L then some { page := 1 - 1, limit := L } else none) =
      (none : Option PageDesc)
    simp
  · intro p hp
    show (if (p - 1) * L + L < N then some ({ page := p + 1, limit := L } : PageDesc)
        else none) = none ↔ ¬p * L < N
    rw [key p hp]
    constructor
    · intro h hlt
      rw [if_pos hlt] at h
      simp at h
    · intro h
      rw [if_neg h]
  · intro p
    show (if 0 < (p - 1) * L then some ({ page := p - 1, limit := L } : PageDesc)
        else none) = none ↔ p ≤ 1
    constructor
    · intro h
      by_contra hp
      have h2 : 0 < (p - 1) * L := Nat.mul_pos (by omega) (by omega)
      rw [if_pos h2] at h
      simp at h
    · intro hp
      have hz : (p - 1) * L = 0 := by
        have hz1 : p - 1 = 0 := by omega
        simp [hz1]
      rw [hz]
      simp
  · intro cl db f
    rfl

theorem c8_pagination_contract_witness :
    1 ≤ 2 ∧ 1 ≤ 3 ∧
    ((buildPagination ((3 + 2 - 1) / 2) 2 3).next = none ∧
     (buildPagination 1 2 3).prev = none ∧
     (∀ p, 1 ≤ p → ((buildPagination p 2 3).next = none ↔ ¬p * 2 < 3)) ∧
     (∀ p, ((buildPagination p 2 3).prev = none ↔ p ≤ 1)) ∧
     (∀ cl db f, (runLeadQuery cl db f).pagination =
        some (buildPagination (queryPage f) (queryLimit f)
          ((runLeadQuery cl db f).total.getD 0)))) :=
  ⟨by decide, by decide, c8_pagination_contract 3 2 (by decide) (by decide)⟩

/-- C9: login returns the one uniform (401, "Invalid credentials") response
both when no user carries the email and when the password check fails for an
existing user; and a sub_admin whose status is not approved is refused with
403 even on correct credentials. -/
theorem c9_login_uniform_invalid_credentials (db : List AuthUser)
    (email password : String) :
    (db.find? (fun u => u.email == email) = none →
      login db email password = (401, "Invalid credentials")) ∧
    (∀ u, db.find? (fun u => u.email == email) = some u → u.password ≠ password →
      login db email password = (401, "Invalid credentials")) ∧
    (∀ u, db.find? (fun u => u.email == email) = some u → u.password = password →
      u.role = "sub_admin" → u.status ≠ "approved" →
      login db email password =
        (403, "Your account is pending approval or has been rejected")) := by
  refine ⟨?_, ?_, ?_⟩
  · intro h
    unfold login
    rw [h]
  · intro u hu hpw
    unfold login
    rw [hu]
    show (if u.password != password then ((401 : Nat), "Invalid credentials")
        else if u.role == "sub_admin" && u.status != "approved"
        then ((403 : Nat), "Your account is pending approval or has been rejected")
        else ((200 : Nat), "Login successful")) = (401, "Invalid credentials")
    rw [if_pos (by simp [hpw])]
  · intro u hu hpw hrole hstat
    unfold login
    rw [hu]
    show (if u.password != password then ((401 : Nat), "Invalid credentials")
        else if u.role == "sub_admin" && u.status != "approved"
        then ((403 : Nat), "Your account is pending approval or has been rejected")
        else ((200 : Nat), "Login successful")) =
      (403, "Your account is pending approval or has been rejected")
    rw [if_neg (by simp [hpw]), if_pos (by simp [hrole, hstat])]

theorem c9_login_uniform_invalid_credentials_witness :
    login [] "x@y.z" "pw" = (401, "Invalid credentials") ∧
    login [{ email := "a@b.c", password := "secret", role := "sub_admin",
             status := "approved" }] "a@b.c" "wrong" = (401, "Invalid credentials") ∧
    login [{ email := "a@b.c", password := "secret", role := "sub_admin",
             status := "pending" }] "a@b.c" "secret" =
      (403, "Your account is pending approval or has been rejected") :=
  ⟨(c9_login_uniform_invalid_credentials [] "x@y.z" "pw").1 rfl,
   (c9_login_uniform_invalid_credentials
       [{ email := "a@b.c", password := "secret", role := "sub_admin",
          status := "approved" }] "a@b.c" "wrong").2.1
     { email := "a@b.c", password := "secret", role := "sub_admin",
       status := "approved" } rfl (by decide),
   (c9_login_uniform_invalid_credentials
       [{ email := "a@b.c", password := "secret", role := "sub_admin",
          status := "pending" }] "a@b.c" "secret").2.2
     { email := "a@b.c", password := "secret", role := "sub_admin",
       status := "pending" } rfl rfl rfl (by decide)⟩

end SuperBackend
